import Mathlib

/-!
Verification of the real-time highlight synchronization subsystem of the
scripture study application.

The definitions below are a shallow embedding of the highlight logic in
`src/app/components/ScriptureReader.tsx` (selection handling in
`handleMouseUp`, the socket `highlight` receipt handler, the
`saveHighlights` persistence routine, and the regrouping effect) and of the
second persistence routine in `src/app/components/Navbar.tsx`.

React `useState` cells (`localHighlights`, `highlightedWords`, `needsSync`,
`isSyncing`) are modelled as fields of an explicit `SyncState` record; the
JavaScript object keyed by `verseId` is modelled as an association list with
first-match lookup and replace-first-or-append update, matching the unique-key
semantics of a JS object. Asynchronous storage calls are modelled by passing
the remote document collection explicitly and by a `commitOk` flag standing
for the outcome of the awaited `batch.commit()`; the counters `reads` and
`commits` record how many `getDocs` and `batch.commit` calls were issued.
Fresh Firestore document ids (`doc(highlightsRef).id`) are modelled by an
id-generator function applied to the insertion position.
-/

set_option autoImplicit false

namespace SharedScriptures

/-- A highlight record as in the `HighlightedWord` interface of
`ScriptureReader.tsx`: an optional persisted id, the verse it belongs to,
half-open character offsets, a color, and the owner's user id. -/
structure Highlight where
  id : Option String
  verseId : String
  startIndex : Nat
  endIndex : Nat
  color : String
  userId : String
deriving DecidableEq, Repr

/-- One verse's highlights (the value stored under one key of the
`LocalHighlights` object). -/
abbrev Bucket := List Highlight

/-- The `LocalHighlights` object (`{ [verseId: string]: HighlightedWord[] }`),
modelled as an association list with unique keys in insertion order. -/
abbrev LocalHighlights := List (String × Bucket)

/-- Lookup of `m[verseId]`, returning `[]` when the key is absent (the code
initializes a missing key with `[]` before using it). -/
def getBucket : LocalHighlights → String → Bucket
  | [], _ => []
  | p :: t, v => if p.fst == v then p.snd else getBucket t v

/-- Assignment `m[verseId] = b` on a JS object: replaces the value at an
existing key in place, otherwise appends the new key at the end. -/
def setBucket : LocalHighlights → String → Bucket → LocalHighlights
  | [], v, b => [(v, b)]
  | p :: t, v, b => if p.fst == v then (v, b) :: t else p :: setBucket t v b

/-- `Object.values(localHighlights).flat()` as used by both save routines. -/
def flattenAll (m : LocalHighlights) : List Highlight :=
  (m.map Prod.snd).flatten

/-- The React state cells shared between the reader and the navbar:
the grouped highlight map, the flat `highlightedWords` list, and the two
sync flags. -/
structure SyncState where
  localHighlights : LocalHighlights
  highlightedWords : List Highlight
  needsSync : Bool
  isSyncing : Bool
deriving DecidableEq, Repr

/-- The `SelectionState` of `ScriptureReader.tsx`. -/
structure SelectionState where
  isSelecting : Bool
  startIndex : Option Nat
  endIndex : Option Nat
  verseId : Option String
deriving DecidableEq, Repr

/-- The overlap predicate on half-open ranges used by the specification:
`[s1, e1)` and `[s2, e2)` overlap when `s1 < e2 && e1 > s2`. -/
def overlapsRange (s1 e1 s2 e2 : Nat) : Bool :=
  s1 < e2 && e1 > s2

/-- The bucket update performed inside `handleMouseUp` (lines 348-357 of
`ScriptureReader.tsx`): keep every highlight with
`h.startIndex < start || h.endIndex > end`, then push the new highlight. -/
def upsertBucket (bucket : Bucket) (newH : Highlight) : Bucket :=
  bucket.filter
    (fun h => h.startIndex < newH.startIndex || h.endIndex > newH.endIndex)
    ++ [newH]

/-- The `handleMouseUp` handler: normalizes the selection with `min`/`max`,
rejects empty ranges, looks the verse up, and on success updates the
highlight map (via `upsertBucket`), the flat list, and `needsSync`, emitting
the new highlight over the socket. The returned `Option Highlight` is the
emitted event (`none` when nothing was created). The verses list is
abstracted to the list of available `verseId`s. -/
def handleMouseUp (sel : SelectionState) (verses : List String)
    (selectedColor uid : String) (st : SyncState) : SyncState × Option Highlight :=
  match sel.isSelecting, sel.startIndex, sel.endIndex, sel.verseId with
  | true, some a, some b, some vid =>
    let s := min a b
    let e := max a b
    if s < e then
      match verses.find? (fun v => v == vid) with
      | some v =>
        if v != "" then
          let newH : Highlight :=
            { id := none, verseId := v, startIndex := s, endIndex := e,
              color := selectedColor, userId := uid }
          let m := setBucket st.localHighlights v
            (upsertBucket (getBucket st.localHighlights v) newH)
          let ws := st.highlightedWords.filter
            (fun h => h.verseId != v || h.startIndex < s || h.endIndex > e)
            ++ [newH]
          ({ st with
              localHighlights := m, highlightedWords := ws,
              needsSync := true }, some newH)
        else (st, none)
      | none => (st, none)
    else (st, none)
  | _, _, _, _ => (st, none)

/-- The duplicate test used on `highlightedWords` in the socket `highlight`
handler: same `verseId`, `startIndex`, `endIndex` and `userId`. -/
def keyMatchWords (d h : Highlight) : Bool :=
  h.verseId == d.verseId && h.startIndex == d.startIndex &&
    h.endIndex == d.endIndex && h.userId == d.userId

/-- The duplicate test used on the verse bucket in the socket `highlight`
handler: same `startIndex`, `endIndex` and `userId` (the bucket is already
keyed by `verseId`). -/
def keyMatchBucket (d h : Highlight) : Bool :=
  h.startIndex == d.startIndex && h.endIndex == d.endIndex &&
    h.userId == d.userId

/-- The `socketConnection.on` handler for `highlight` events
(lines 577-616 of `ScriptureReader.tsx`): append the received highlight to
`highlightedWords` and to its verse bucket unless an entry with the same key
already exists; neither sync flag is touched and no validation is applied. -/
def receiveHighlight (d : Highlight) (st : SyncState) : SyncState :=
  let ws :=
    if st.highlightedWords.any (keyMatchWords d) then st.highlightedWords
    else st.highlightedWords ++ [d]
  let b := getBucket st.localHighlights d.verseId
  let b2 := if b.any (keyMatchBucket d) then b else b ++ [d]
  { st with
    highlightedWords := ws,
    localHighlights := setBucket st.localHighlights d.verseId b2 }

/-- One iteration of the grouping loop (`groupedHighlights[h.verseId].push(h)`
with initialization of a missing key): push `h` onto its verse bucket. -/
def groupStep (m : LocalHighlights) (h : Highlight) : LocalHighlights :=
  setBucket m h.verseId (getBucket m h.verseId ++ [h])

/-- The grouping loop shared by the load path and the regrouping effect:
walk the flat list and push each highlight onto its verse bucket. -/
def groupByVerse (hs : List Highlight) : LocalHighlights :=
  hs.foldl groupStep []

/-- The `useEffect` at lines 280-291 of `ScriptureReader.tsx`: when
`highlightedWords` is non-empty, replace `localHighlights` with the grouped
form of `highlightedWords`. -/
def applyRegroupEffect (st : SyncState) : SyncState :=
  if 0 < st.highlightedWords.length then
    { st with localHighlights := groupByVerse st.highlightedWords }
  else st

/-- The outcome of one invocation of a save routine: the resulting local
state, the resulting remote document collection, how many storage reads
(`getDocs`) and batch commits were issued, and the documents inserted by a
successful batch. -/
structure SaveResult where
  state : SyncState
  remote : List Highlight
  reads : Nat
  commits : Nat
  inserted : List Highlight
deriving DecidableEq, Repr

/-- The state right after `setIsSyncing(true)`, i.e. while a save call is in
flight at its first suspension point. -/
def inflight (st : SyncState) : SyncState :=
  { st with isSyncing := true }

/-- The document records built in the insertion loop of `saveHighlights`:
each local highlight is copied with a fresh storage id and `userId` forced to
the current user's id. -/
def mkDocs (ids : Nat → String) (uid : String) : Nat → List Highlight → List Highlight
  | _, [] => []
  | i, h :: t =>
    { id := some (ids i), verseId := h.verseId, startIndex := h.startIndex,
      endIndex := h.endIndex, color := h.color, userId := uid }
      :: mkDocs ids uid (i + 1) t

/-- The body of `ScriptureReader.saveHighlights` after the guard, starting
from the in-flight state: flatten the map; if empty, clear `needsSync` and
return before any storage call; otherwise read the user's persisted docs,
commit one batch deleting them and inserting the current local set, and on
success replace `highlightedWords` with the inserted docs and clear
`needsSync`; on failure change no local state. `isSyncing` is cleared on
every path (the `finally` block). -/
def saveHighlightsBody (uid : String) (ids : Nat → String) (commitOk : Bool)
    (remote : List Highlight) (st : SyncState) : SaveResult :=
  let all := flattenAll st.localHighlights
  if all.length = 0 then
    { state := { st with needsSync := false, isSyncing := false },
      remote := remote, reads := 0, commits := 0, inserted := [] }
  else
    let docs := mkDocs ids uid 0 all
    if commitOk then
      { state := { st with
          highlightedWords := docs, needsSync := false,
          isSyncing := false },
        remote := remote.filter (fun h => h.userId != uid) ++ docs,
        reads := 1, commits := 1, inserted := docs }
    else
      { state := { st with isSyncing := false },
        remote := remote, reads := 1, commits := 1, inserted := [] }

/-- `saveHighlights` of `ScriptureReader.tsx` (lines 635-703): a no-op when
there is no user or a save is already in flight, otherwise the body run from
the in-flight state. -/
def saveHighlights (user : Option String) (ids : Nat → String) (commitOk : Bool)
    (remote : List Highlight) (st : SyncState) : SaveResult :=
  match user with
  | none => { state := st, remote := remote, reads := 0, commits := 0, inserted := [] }
  | some uid =>
    if st.isSyncing then
      { state := st, remote := remote, reads := 0, commits := 0, inserted := [] }
    else
      saveHighlightsBody uid ids commitOk remote (inflight st)

/-- The body of `Navbar.saveHighlights` (lines 44-87 of `Navbar.tsx`): no
empty-store check — it always reads the user's persisted docs and commits a
batch deleting them and inserting the flattened local set; on success it only
clears `needsSync`, never writing ids (or anything else) back into the
in-memory highlight state. -/
def navbarSaveBody (uid : String) (ids : Nat → String) (commitOk : Bool)
    (remote : List Highlight) (st : SyncState) : SaveResult :=
  let all := flattenAll st.localHighlights
  let docs := mkDocs ids uid 0 all
  if commitOk then
    { state := { st with needsSync := false, isSyncing := false },
      remote := remote.filter (fun h => h.userId != uid) ++ docs,
      reads := 1, commits := 1, inserted := docs }
  else
    { state := { st with isSyncing := false },
      remote := remote, reads := 1, commits := 1, inserted := [] }

/-- `saveHighlights` of `Navbar.tsx`: same guard as the reader's routine,
then `navbarSaveBody` from the in-flight state. -/
def navbarSaveHighlights (user : Option String) (ids : Nat → String)
    (commitOk : Bool) (remote : List Highlight) (st : SyncState) : SaveResult :=
  match user with
  | none => { state := st, remote := remote, reads := 0, commits := 0, inserted := [] }
  | some uid =>
    if st.isSyncing then
      { state := st, remote := remote, reads := 0, commits := 0, inserted := [] }
    else
      navbarSaveBody uid ids commitOk remote (inflight st)

/-- A highlight with a non-degenerate half-open range. -/
def rangeValid (h : Highlight) : Prop :=
  h.startIndex < h.endIndex

instance (h : Highlight) : Decidable (rangeValid h) := by
  unfold rangeValid; infer_instance

/-- Every highlight in the map and in the flat list has a non-degenerate
range. -/
def storeValid (st : SyncState) : Prop :=
  (∀ h ∈ flattenAll st.localHighlights, rangeValid h) ∧
    (∀ h ∈ st.highlightedWords, rangeValid h)

instance (st : SyncState) : Decidable (storeValid st) := by
  unfold storeValid; infer_instance

theorem flattenAll_nil : flattenAll [] = [] := rfl

theorem flattenAll_cons (p : String × Bucket) (t : LocalHighlights) :
    flattenAll (p :: t) = p.snd ++ flattenAll t := by
  simp [flattenAll]

theorem getBucket_setBucket (m : LocalHighlights) (v : String) (b : Bucket) :
    getBucket (setBucket m v b) v = b := by
  induction m with
  | nil => simp [getBucket, setBucket]
  | cons p t ih =>
    cases h : p.fst == v with
    | true => simp [getBucket, setBucket, h]
    | false => simp [getBucket, setBucket, h, ih]

theorem setBucket_setBucket (m : LocalHighlights) (v : String) (b b2 : Bucket) :
    setBucket (setBucket m v b) v b2 = setBucket m v b2 := by
  induction m with
  | nil => simp [setBucket]
  | cons p t ih =>
    cases h : p.fst == v with
    | true => simp [setBucket, h]
    | false => simp [setBucket, h, ih]

theorem setBucket_getBucket (m : LocalHighlights) (v : String)
    (hne : getBucket m v ≠ []) : setBucket m v (getBucket m v) = m := by
  induction m with
  | nil => simp [getBucket] at hne
  | cons p t ih =>
    cases h : p.fst == v with
    | true =>
      have hv : p.fst = v := by simpa using h
      simp only [setBucket, getBucket, h, if_pos]
      rw [← hv]
    | false =>
      simp only [getBucket, h] at hne
      simp [setBucket, getBucket, h, ih hne]

theorem getBucket_cons (p : String × Bucket) (t : LocalHighlights) (v : String) :
    getBucket (p :: t) v = if p.fst == v then p.snd else getBucket t v := rfl

theorem setBucket_cons (p : String × Bucket) (t : LocalHighlights) (v : String)
    (b : Bucket) :
    setBucket (p :: t) v b = if p.fst == v then (v, b) :: t else p :: setBucket t v b := rfl

theorem mem_of_mem_getBucket {g : Highlight} (m : LocalHighlights) (v : String)
    (hg : g ∈ getBucket m v) : g ∈ flattenAll m := by
  induction m with
  | nil => simp [getBucket] at hg
  | cons p t ih =>
    rw [flattenAll_cons]
    rw [getBucket_cons] at hg
    by_cases h : (p.fst == v) = true
    · rw [if_pos h] at hg
      exact List.mem_append_left _ hg
    · rw [if_neg h] at hg
      exact List.mem_append_right _ (ih hg)

theorem mem_flattenAll_setBucket {g : Highlight} (m : LocalHighlights)
    (v : String) (b : Bucket) (hg : g ∈ flattenAll (setBucket m v b)) :
    g ∈ flattenAll m ∨ g ∈ b := by
  induction m with
  | nil =>
    rw [setBucket, flattenAll_cons, flattenAll_nil, List.append_nil] at hg
    exact Or.inr hg
  | cons p t ih =>
    rw [setBucket_cons] at hg
    by_cases h : (p.fst == v) = true
    · rw [if_pos h, flattenAll_cons] at hg
      rcases List.mem_append.mp hg with hg' | hg'
      · exact Or.inr hg'
      · exact Or.inl (by rw [flattenAll_cons]; exact List.mem_append_right _ hg')
    · rw [if_neg h, flattenAll_cons] at hg
      rcases List.mem_append.mp hg with hg' | hg'
      · exact Or.inl (by rw [flattenAll_cons]; exact List.mem_append_left _ hg')
      · rcases ih hg' with hg'' | hg''
        · exact Or.inl (by rw [flattenAll_cons]; exact List.mem_append_right _ hg'')
        · exact Or.inr hg''

theorem mem_foldl_groupStep {g : Highlight} (ws : List Highlight) :
    ∀ m : LocalHighlights, g ∈ flattenAll (ws.foldl groupStep m) →
      g ∈ flattenAll m ∨ g ∈ ws := by
  induction ws with
  | nil => intro m hg; exact Or.inl hg
  | cons h t ih =>
    intro m hg
    rw [List.foldl_cons] at hg
    rcases ih (groupStep m h) hg with hg' | hg'
    · rcases mem_flattenAll_setBucket m h.verseId _ hg' with hm | hb
      · exact Or.inl hm
      · rcases List.mem_append.mp hb with hm | hs
        · exact Or.inl (mem_of_mem_getBucket m h.verseId hm)
        · rcases List.mem_singleton.mp hs with rfl
          exact Or.inr (List.mem_cons_self _ _)
    · exact Or.inr (List.mem_cons_of_mem _ hg')

theorem mem_groupByVerse {g : Highlight} (ws : List Highlight)
    (hg : g ∈ flattenAll (groupByVerse ws)) : g ∈ ws := by
  rcases mem_foldl_groupStep ws [] hg with hg' | hg'
  · rw [flattenAll_nil] at hg'
    exact absurd hg' (List.not_mem_nil g)
  · exact hg'

theorem mem_upsertBucket {g : Highlight} (b : Bucket) (n : Highlight) :
    g ∈ upsertBucket b n ↔
      (g ∈ b ∧ (g.startIndex < n.startIndex ∨ n.endIndex < g.endIndex)) ∨ g = n := by
  simp [upsertBucket, List.mem_filter, List.mem_append]

theorem mem_mkDocs {d : Highlight} (ids : Nat → String) (uid : String)
    (l : List Highlight) : ∀ i : Nat, d ∈ mkDocs ids uid i l →
      d.id.isSome = true ∧ d.userId = uid := by
  induction l with
  | nil => intro i hd; simp [mkDocs] at hd
  | cons h t ih =>
    intro i hd
    rw [mkDocs] at hd
    rcases List.mem_cons.mp hd with hd' | hd'
    · subst hd'; exact ⟨rfl, rfl⟩
    · exact ih (i + 1) hd'

theorem mkDocs_ne_nil (ids : Nat → String) (uid : String) (i : Nat)
    (l : List Highlight) (hl : l ≠ []) : mkDocs ids uid i l ≠ [] := by
  cases l with
  | nil => exact absurd rfl hl
  | cons h t => simp [mkDocs]

/-- Every highlight in the list carries a storage-assigned id. -/
def allAssignedIds (l : List Highlight) : Bool :=
  l.all (fun h => h.id.isSome)

/-- Every highlight in the list is owned by `uid`. -/
def allOwnedBy (l : List Highlight) (uid : String) : Bool :=
  l.all (fun h => h.userId == uid)

/-- A sample id generator standing for Firestore's fresh document ids. -/
def sampleIds (n : Nat) : String :=
  String.append "doc" (toString n)

/-- The existing sample highlight `H1 = [2,8)` of the replace-on-overlap
scenario. -/
def sampleH1 : Highlight :=
  { id := none, verseId := "v1", startIndex := 2, endIndex := 8,
    color := "#FFEB3B", userId := "u1" }

/-- The new sample highlight `H2 = [5,10)` of the replace-on-overlap
scenario. -/
def sampleH2 : Highlight :=
  { id := none, verseId := "v1", startIndex := 5, endIndex := 10,
    color := "#C5E1A5", userId := "u1" }

/-- A dirty sample session state holding `sampleH1` on verse `v1`. -/
def sampleState : SyncState :=
  { localHighlights := [("v1", [sampleH1])], highlightedWords := [sampleH1],
    needsSync := true, isSyncing := false }

/-- A dirty sample session state with no highlights at all. -/
def emptyDirtyState : SyncState :=
  { localHighlights := [], highlightedWords := [], needsSync := true,
    isSyncing := false }

/-- A sample remote collection holding one persisted highlight of user `u1`
and one of another user. -/
def sampleRemote : List Highlight :=
  [{ id := some "r1", verseId := "v1", startIndex := 0, endIndex := 1,
     color := "#90CAF9", userId := "u1" },
   { id := some "r2", verseId := "v2", startIndex := 4, endIndex := 9,
     color := "#F8BBD0", userId := "uOther" }]

/-- A dirty sample session state holding a highlight owned by another user
(as left behind by a remote receipt). -/
def otherUserState : SyncState :=
  {
    localHighlights := [("v1", [{
      id := none, verseId := "v1",
      startIndex := 0, endIndex := 4, color := "#CE93D8",
      userId := "uOther" }])],
    highlightedWords := [{
      id := none, verseId := "v1", startIndex := 0,
      endIndex := 4, color := "#CE93D8", userId := "uOther" }],
    needsSync := true, isSyncing := false }

/-- A degenerate (zero-length) remote highlight event. -/
def degenEvent : Highlight :=
  { id := none, verseId := "v1", startIndex := 3, endIndex := 3,
    color := "#90CAF9", userId := "u2" }

theorem keyMatchWords_self (d : Highlight) : keyMatchWords d d = true := by
  simp [keyMatchWords]

theorem keyMatchBucket_self (d : Highlight) : keyMatchBucket d d = true := by
  simp [keyMatchBucket]

theorem receive_drop (d : Highlight) (st : SyncState)
    (hex : (getBucket st.localHighlights d.verseId).any (keyMatchBucket d) = true) :
    (receiveHighlight d st).localHighlights = st.localHighlights := by
  have hb : getBucket st.localHighlights d.verseId ≠ [] := by
    obtain ⟨x, hx, _⟩ := List.any_eq_true.mp hex
    exact List.ne_nil_of_mem hx
  simp only [receiveHighlight, hex, if_true]
  exact setBucket_getBucket _ _ hb

theorem receive_append (d : Highlight) (st : SyncState)
    (hnone : (getBucket st.localHighlights d.verseId).any (keyMatchBucket d) = false) :
    getBucket (receiveHighlight d st).localHighlights d.verseId =
      getBucket st.localHighlights d.verseId ++ [d] := by
  simp [receiveHighlight, hnone, getBucket_setBucket]

theorem receive_words_any (d : Highlight) (st : SyncState) :
    (receiveHighlight d st).highlightedWords.any (keyMatchWords d) = true := by
  by_cases hw : st.highlightedWords.any (keyMatchWords d) = true
  · simp [receiveHighlight, hw]
  · have hw' : st.highlightedWords.any (keyMatchWords d) = false := by
      simpa using hw
    simp [receiveHighlight, hw', List.any_append, keyMatchWords_self]

theorem receive_bucket_any (d : Highlight) (st : SyncState) :
    (getBucket (receiveHighlight d st).localHighlights d.verseId).any
      (keyMatchBucket d) = true := by
  by_cases hb : (getBucket st.localHighlights d.verseId).any (keyMatchBucket d) = true
  · simp [receiveHighlight, hb, getBucket_setBucket]
  · have hb' : (getBucket st.localHighlights d.verseId).any (keyMatchBucket d) = false := by
      simpa using hb
    simp [receiveHighlight, hb', getBucket_setBucket, List.any_append,
      keyMatchBucket_self]

theorem receiveHighlight_idem (d : Highlight) (st : SyncState) :
    receiveHighlight d (receiveHighlight d st) = receiveHighlight d st := by
  have hw := receive_words_any d st
  have hb := receive_bucket_any d st
  have hne : getBucket (receiveHighlight d st).localHighlights d.verseId ≠ [] := by
    obtain ⟨x, hx, _⟩ := List.any_eq_true.mp hb
    exact List.ne_nil_of_mem hx
  conv_lhs => rw [receiveHighlight]
  simp only [hw, hb, if_true]
  rw [setBucket_getBucket _ _ hne]

/-- C1 counterexample: with existing `H1 = [2,8)` and new `H2 = [5,10)` on
the same verse, the ranges overlap, yet the upsert performed by
`handleMouseUp` keeps `H1` — the bucket is `[H1, H2]`, not exactly `[H2]` as
the claim states. -/
theorem c1_replace_on_overlap_counterexample :
    overlapsRange sampleH1.startIndex sampleH1.endIndex
        sampleH2.startIndex sampleH2.endIndex = true ∧
      upsertBucket [sampleH1] sampleH2 = [sampleH1, sampleH2] ∧
      upsertBucket [sampleH1] sampleH2 ≠ [sampleH2] := by
  decide

/-- C1 (amended): the upsert performed on local highlight creation removes
exactly those existing highlights whose range is fully contained in the new
highlight's `[startIndex, endIndex)` range (it keeps every highlight with
`startIndex < newStart` or `endIndex > newEnd`, including partially
overlapping ones), then appends the new highlight; in particular, given
existing `H1 = [2,8)` and new `H2 = [5,10)`, after the upsert the bucket
contains exactly `H1` and `H2`. -/
theorem c1_replace_contained_amended :
    (∀ (b : Bucket) (n g : Highlight),
        g ∈ upsertBucket b n ↔
          (g ∈ b ∧ (g.startIndex < n.startIndex ∨ n.endIndex < g.endIndex)) ∨
            g = n) ∧
      upsertBucket [sampleH1] sampleH2 = [sampleH1, sampleH2] := by
  exact ⟨fun b n g => mem_upsertBucket b n, by decide⟩

/-- C1 witness: the amended membership characterization evaluated at the
concrete scenario — `H1` survives the upsert of `H2`. -/
theorem c1_replace_contained_witness :
    sampleH1 ∈ upsertBucket [sampleH1] sampleH2 :=
  (c1_replace_contained_amended.1 [sampleH1] sampleH2 sampleH1).mpr
    (Or.inl ⟨by decide, by decide⟩)

/-- C2 counterexample: the upsert sequence `upsert [2,8)` then
`upsert [5,10)` on one verse bucket for one user leaves two distinct
highlights in the bucket whose ranges overlap, violating the claimed
invariant. -/
theorem c2_no_self_overlap_counterexample :
    ∃ h1 ∈ upsertBucket (upsertBucket [] sampleH1) sampleH2,
      ∃ h2 ∈ upsertBucket (upsertBucket [] sampleH1) sampleH2,
        h1 ≠ h2 ∧
          overlapsRange h1.startIndex h1.endIndex h2.startIndex h2.endIndex
            = true := by
  decide

/-- C2 (amended): after each upsert, every highlight in the bucket other
than the newly inserted one has `startIndex < newStart` or
`endIndex > newEnd` — no surviving highlight is fully contained in the new
highlight's range; highlights that merely overlap the new range can coexist
with it, so the claimed no-overlap invariant does not hold. -/
theorem c2_no_containment_amended :
    ∀ (b : Bucket) (n g : Highlight), g ∈ upsertBucket b n →
      g = n ∨ g.startIndex < n.startIndex ∨ n.endIndex < g.endIndex := by
  intro b n g hg
  rcases (mem_upsertBucket b n).mp hg with ⟨_, h⟩ | h
  · exact Or.inr h
  · exact Or.inl h

/-- C2 witness: the amended statement evaluated at the concrete sequence —
`H1` survives the upsert of `H2` because `H1.startIndex < H2.startIndex`. -/
theorem c2_no_containment_witness :
    sampleH1 = sampleH2 ∨ sampleH1.startIndex < sampleH2.startIndex ∨
      sampleH2.endIndex < sampleH1.endIndex :=
  c2_no_containment_amended (upsertBucket [] sampleH1) sampleH2 sampleH1
    (by decide)

/-- C6: the socket receipt handler performs an idempotent insert on the
Local Highlight Store — if a highlight with the same
`(startIndex, endIndex, userId)` key already exists in the verse bucket of
the event's `verseId`, the event is dropped and the map is unchanged;
otherwise the event is appended verbatim to the bucket (no
replace-on-overlap is run); consequently receiving the identical event twice
is the same as receiving it once, and it leaves exactly one matching entry
in the bucket. -/
theorem c6_idempotent_remote_receipt (d : Highlight) (st : SyncState) :
    ((getBucket st.localHighlights d.verseId).any (keyMatchBucket d) = true →
        (receiveHighlight d st).localHighlights = st.localHighlights) ∧
      ((getBucket st.localHighlights d.verseId).any (keyMatchBucket d) = false →
        getBucket (receiveHighlight d st).localHighlights d.verseId =
          getBucket st.localHighlights d.verseId ++ [d]) ∧
      receiveHighlight d (receiveHighlight d st) = receiveHighlight d st ∧
      ((getBucket st.localHighlights d.verseId).any (keyMatchBucket d) = false →
        (getBucket (receiveHighlight d (receiveHighlight d st)).localHighlights
            d.verseId).countP (keyMatchBucket d) = 1) := by
  refine ⟨receive_drop d st, receive_append d st, receiveHighlight_idem d st, ?_⟩
  intro hnone
  rw [receiveHighlight_idem, receive_append d st hnone, List.countP_append]
  have h0 : (getBucket st.localHighlights d.verseId).countP (keyMatchBucket d) = 0 := by
    refine List.countP_eq_zero.mpr ?_
    intro x hx
    have := List.any_eq_false.mp hnone x hx
    simpa using this
  rw [h0]
  simp [List.countP_cons, keyMatchBucket_self]

/-- C6 witness: receipt of `H1` into an empty store appends it, a second
receipt is dropped (one matching entry remains), and receipt of `H1` into a
store already holding it leaves the map unchanged. -/
theorem c6_idempotent_remote_receipt_witness :
    getBucket (receiveHighlight sampleH1 emptyDirtyState).localHighlights
        sampleH1.verseId = [sampleH1] ∧
      (getBucket (receiveHighlight sampleH1
          (receiveHighlight sampleH1 emptyDirtyState)).localHighlights
          sampleH1.verseId).countP (keyMatchBucket sampleH1) = 1 ∧
      (receiveHighlight sampleH1 sampleState).localHighlights =
        sampleState.localHighlights := by
  refine ⟨?_, ?_, ?_⟩
  · have h := (c6_idempotent_remote_receipt sampleH1 emptyDirtyState).2.1 (by decide)
    simpa using h
  · exact (c6_idempotent_remote_receipt sampleH1 emptyDirtyState).2.2.2 (by decide)
  · exact (c6_idempotent_remote_receipt sampleH1 sampleState).1 (by decide)

theorem receive_storeValid (d : Highlight) (st : SyncState)
    (hd : rangeValid d) (hst : storeValid st) :
    storeValid (receiveHighlight d st) := by
  obtain ⟨hmap, hwords⟩ := hst
  constructor
  · intro h hmem
    simp only [receiveHighlight] at hmem
    rcases mem_flattenAll_setBucket _ _ _ hmem with hm | hb
    · exact hmap h hm
    · by_cases hex : (getBucket st.localHighlights d.verseId).any (keyMatchBucket d) = true
      · rw [if_pos hex] at hb
        exact hmap h (mem_of_mem_getBucket _ _ hb)
      · rw [if_neg hex] at hb
        rcases List.mem_append.mp hb with hb' | hb'
        · exact hmap h (mem_of_mem_getBucket _ _ hb')
        · rcases List.mem_singleton.mp hb' with rfl
          exact hd
  · intro h hmem
    simp only [receiveHighlight] at hmem
    by_cases hw : st.highlightedWords.any (keyMatchWords d) = true
    · rw [if_pos hw] at hmem
      exact hwords h hmem
    · rw [if_neg hw] at hmem
      rcases List.mem_append.mp hmem with hm | hm
      · exact hwords h hm
      · rcases List.mem_singleton.mp hm with rfl
        exact hd

theorem handleMouseUp_storeValid (sel : SelectionState) (verses : List String)
    (selectedColor uid : String) (st : SyncState) (hst : storeValid st) :
    storeValid (handleMouseUp sel verses selectedColor uid st).1 := by
  obtain ⟨isSel, sa, sb, sv⟩ := sel
  cases isSel <;> cases sa <;> cases sb <;> cases sv <;>
    dsimp only [handleMouseUp] <;> try exact hst
  rename_i a b vid
  by_cases hlt : min a b < max a b
  · rw [if_pos hlt]
    split
    · rename_i v hfind
      by_cases hv : (v != "") = true
      · rw [if_pos hv]
        obtain ⟨hmap, hwords⟩ := hst
        constructor
        · intro h hmem
          dsimp only at hmem
          rcases mem_flattenAll_setBucket _ _ _ hmem with hm | hb
          · exact hmap h hm
          · rcases (mem_upsertBucket _ _).mp hb with ⟨hg, _⟩ | hg
            · exact hmap h (mem_of_mem_getBucket _ _ hg)
            · rcases hg with rfl
              exact hlt
        · intro h hmem
          dsimp only at hmem
          rcases List.mem_append.mp hmem with hm | hm
          · exact hwords h (List.mem_filter.mp hm).1
          · rcases List.mem_singleton.mp hm with rfl
            exact hlt
      · rw [if_neg hv]
        exact hst
    · exact hst
  · rw [if_neg hlt]
    exact hst

/-- C7 counterexample: the socket receipt handler applies no range
validation, so a degenerate remote event with `startIndex = endIndex = 3` is
inserted verbatim into the Local Highlights Map, violating the claimed
`startIndex < endIndex` invariant. -/
theorem c7_nondegenerate_range_counterexample :
    getBucket (receiveHighlight degenEvent emptyDirtyState).localHighlights "v1"
        = [degenEvent] ∧
      ¬ rangeValid degenEvent ∧
      ¬ storeValid (receiveHighlight degenEvent emptyDirtyState) := by
  decide

/-- C7 (amended): local highlight creation (`handleMouseUp`) preserves the
invariant that every highlight in the Local Highlights Map and in
`highlightedWords` satisfies `startIndex < endIndex` (a new highlight is
only created when the normalized selection is non-empty); receipt of a
remote highlight event preserves the invariant only under the additional
assumption that the incoming event itself satisfies
`startIndex < endIndex` — the receipt path performs no validation of its
own. -/
theorem c7_nondegenerate_range_amended :
    (∀ (sel : SelectionState) (verses : List String)
        (selectedColor uid : String) (st : SyncState), storeValid st →
        storeValid (handleMouseUp sel verses selectedColor uid st).1) ∧
      ∀ (d : Highlight) (st : SyncState), rangeValid d → storeValid st →
        storeValid (receiveHighlight d st) :=
  ⟨handleMouseUp_storeValid, receive_storeValid⟩

/-- C7 witness: a valid local creation on `[2,8)` followed by receipt of the
valid remote highlight `[5,10)` keeps the store range-valid. -/
theorem c7_nondegenerate_range_amended_witness :
    storeValid (receiveHighlight sampleH2 (handleMouseUp
      {
        isSelecting := true, startIndex := some 2, endIndex := some 8,
        verseId := some "v1" } ["v1"] "#FFEB3B" "u1" emptyDirtyState).1) := by
  refine c7_nondegenerate_range_amended.2 sampleH2 _ (by decide) ?_
  exact c7_nondegenerate_range_amended.1 _ ["v1"] "#FFEB3B" "u1"
    emptyDirtyState (by decide)

/-- C8: a selection whose normalized range `(min a b, max a b)` is
zero-length is a silent no-op — `handleMouseUp` creates no highlight, emits
nothing, raises nothing, and leaves the Local Highlights Map,
`highlightedWords` and `needsSync` (the whole sync state) unchanged. -/
theorem c8_invalid_selection_noop (a b : Nat) (vid : String)
    (verses : List String) (selectedColor uid : String) (st : SyncState)
    (hz : min a b = max a b) :
    handleMouseUp {
        isSelecting := true, startIndex := some a,
        endIndex := some b, verseId := some vid } verses selectedColor uid st
      = (st, none) := by
  have hlt : ¬ min a b < max a b := by rw [hz]; exact lt_irrefl _
  dsimp only [handleMouseUp]
  rw [if_neg hlt]

/-- C8 witness: the zero-length selection `(4,4)` on verse `v1` leaves the
sample state untouched and creates nothing. -/
theorem c8_invalid_selection_noop_witness :
    handleMouseUp {
        isSelecting := true, startIndex := some 4,
        endIndex := some 4, verseId := some "v1" } ["v1"] "#FFEB3B" "u1"
        sampleState
      = (sampleState, none) :=
  c8_invalid_selection_noop 4 4 "v1" ["v1"] "#FFEB3B" "u1" sampleState (by decide)

theorem saveHighlights_failure_eq (uid : String) (ids : Nat → String)
    (remote : List Highlight) (l : LocalHighlights) (w : List Highlight)
    (ns : Bool) (hne : flattenAll l ≠ []) :
    saveHighlights (some uid) ids false remote ⟨l, w, ns, false⟩ =
      { state := ⟨l, w, ns, false⟩, remote := remote, reads := 1, commits := 1,
        inserted := [] } := by
  have hlen : ¬ (flattenAll l).length = 0 := by
    simpa [List.length_eq_zero] using hne
  simp [saveHighlights, saveHighlightsBody, inflight, hlen]

theorem saveHighlights_success_eq (uid : String) (ids : Nat → String)
    (remote : List Highlight) (l : LocalHighlights) (w : List Highlight)
    (ns : Bool) (hne : flattenAll l ≠ []) :
    saveHighlights (some uid) ids true remote ⟨l, w, ns, false⟩ =
      { state := ⟨l, mkDocs ids uid 0 (flattenAll l), false, false⟩,
        remote := remote.filter (fun h => h.userId != uid)
          ++ mkDocs ids uid 0 (flattenAll l),
        reads := 1, commits := 1,
        inserted := mkDocs ids uid 0 (flattenAll l) } := by
  have hlen : ¬ (flattenAll l).length = 0 := by
    simpa [List.length_eq_zero] using hne
  simp [saveHighlights, saveHighlightsBody, inflight, hlen]

/-- C3: the persistence routine clears the dirty flag only on success and is
atomic with respect to local state — a failing batched write returns the
sync state exactly as it was (with `isSyncing` back to false, `needsSync`
untouched) and leaves the remote collection unchanged, while a succeeding
write clears `needsSync`, resets `isSyncing`, and leaves every highlight of
the in-memory store (both `highlightedWords` and the regrouped Local
Highlights Map) carrying a storage-assigned id. -/
theorem c3_persist_clears_dirty_only_on_success (uid : String)
    (ids : Nat → String) (remote : List Highlight) (st : SyncState)
    (hsync : st.isSyncing = false)
    (hne : flattenAll st.localHighlights ≠ []) :
    saveHighlights (some uid) ids false remote st =
      { state := st, remote := remote, reads := 1, commits := 1,
        inserted := [] } ∧
      (saveHighlights (some uid) ids true remote st).state.needsSync = false ∧
      (saveHighlights (some uid) ids true remote st).state.isSyncing = false ∧
      allAssignedIds
        (saveHighlights (some uid) ids true remote st).state.highlightedWords
        = true ∧
      allAssignedIds (flattenAll (applyRegroupEffect
          (saveHighlights (some uid) ids true remote st).state).localHighlights)
        = true := by
  obtain ⟨l, w, ns, sy⟩ := st
  replace hsync : sy = false := hsync
  replace hne : flattenAll l ≠ [] := hne
  subst hsync
  have hdocs : mkDocs ids uid 0 (flattenAll l) ≠ [] :=
    mkDocs_ne_nil ids uid 0 (flattenAll l) hne
  rw [saveHighlights_failure_eq uid ids remote l w ns hne,
    saveHighlights_success_eq uid ids remote l w ns hne]
  refine ⟨rfl, rfl, rfl, ?_, ?_⟩
  · simp only [allAssignedIds, List.all_eq_true]
    intro x hx
    exact (mem_mkDocs ids uid (flattenAll l) 0 hx).1
  · have hpos : 0 < (mkDocs ids uid 0 (flattenAll l)).length :=
      List.length_pos.mpr hdocs
    simp only [applyRegroupEffect, hpos, if_pos, allAssignedIds,
      List.all_eq_true]
    intro x hx
    exact (mem_mkDocs ids uid (flattenAll l) 0 (mem_groupByVerse _ hx)).1

/-- C3 witness: on the dirty sample state, a failing write leaves the state
untouched, and a succeeding write clears the dirty flag and assigns ids. -/
theorem c3_persist_clears_dirty_only_on_success_witness :
    (saveHighlights (some "u1") sampleIds false [] sampleState).state
        = sampleState ∧
      (saveHighlights (some "u1") sampleIds true [] sampleState).state.needsSync
        = false ∧
      allAssignedIds
        (saveHighlights (some "u1") sampleIds true [] sampleState).state.highlightedWords
        = true := by
  have h := c3_persist_clears_dirty_only_on_success "u1" sampleIds []
    sampleState (by decide) (by decide)
  exact ⟨by rw [h.1], h.2.1, h.2.2.2.1⟩

/-- C4: a second `saveHighlights` invocation of any user fired while one is
in flight (on the state where `isSyncing` is already true) is a no-op — zero
storage reads, zero commits, no inserted docs, state and remote returned
unchanged, `needsSync` untouched — while the first invocation commits
exactly once; hence the interleaving performs exactly one storage write. -/
theorem c4_no_concurrent_persist (uid : String) (user2 : Option String)
    (ids ids2 : Nat → String) (commitOk commitOk2 : Bool)
    (remote remote2 : List Highlight) (st : SyncState)
    (hsync : st.isSyncing = false)
    (hne : flattenAll st.localHighlights ≠ []) :
    saveHighlights user2 ids2 commitOk2 remote2 (inflight st) =
      { state := inflight st, remote := remote2, reads := 0, commits := 0,
        inserted := [] } ∧
      (inflight st).needsSync = st.needsSync ∧
      (saveHighlights (some uid) ids commitOk remote st).commits = 1 := by
  refine ⟨?_, rfl, ?_⟩
  · cases user2 <;> simp [saveHighlights, inflight]
  · obtain ⟨l, w, ns, sy⟩ := st
    replace hsync : sy = false := hsync
    replace hne : flattenAll l ≠ [] := hne
    subst hsync
    have hlen : ¬ (flattenAll l).length = 0 := by
      simpa [List.length_eq_zero] using hne
    cases commitOk <;>
      simp [saveHighlights, saveHighlightsBody, inflight, hlen]

/-- C4 witness: on the dirty sample state, the overlapped second call is a
no-op record and the first call commits exactly once. -/
theorem c4_no_concurrent_persist_witness :
    saveHighlights (some "u2") sampleIds true [] (inflight sampleState) =
      { state := inflight sampleState, remote := [], reads := 0, commits := 0,
        inserted := [] } ∧
      (saveHighlights (some "u1") sampleIds true [] sampleState).commits = 1 := by
  have h := c4_no_concurrent_persist "u1" (some "u2") sampleIds sampleIds
    true true [] [] sampleState (by decide) (by decide)
  exact ⟨h.1, h.2.2⟩

/-- C5: calling the persistence routine when the Local Highlights Map
flattens to zero highlights clears `needsSync` and returns without any
storage read or write (and `isSyncing` is false afterwards). -/
theorem c5_empty_store_short_circuit (uid : String) (ids : Nat → String)
    (commitOk : Bool) (remote : List Highlight) (st : SyncState)
    (hsync : st.isSyncing = false)
    (hempty : flattenAll st.localHighlights = []) :
    saveHighlights (some uid) ids commitOk remote st =
      { state := { st with needsSync := false }, remote := remote,
        reads := 0, commits := 0, inserted := [] } ∧
      (saveHighlights (some uid) ids commitOk remote st).state.isSyncing
        = false := by
  obtain ⟨l, w, ns, sy⟩ := st
  replace hsync : sy = false := hsync
  replace hempty : flattenAll l = [] := hempty
  subst hsync
  constructor <;>
    simp [saveHighlights, saveHighlightsBody, inflight, hempty]

/-- C5 witness: saving the empty dirty state performs no storage operation
and clears the dirty flag. -/
theorem c5_empty_store_short_circuit_witness :
    saveHighlights (some "u1") sampleIds true [] emptyDirtyState =
      { state := { emptyDirtyState with needsSync := false }, remote := [],
        reads := 0, commits := 0, inserted := [] } ∧
      (saveHighlights (some "u1") sampleIds true [] emptyDirtyState).state.isSyncing
        = false :=
  c5_empty_store_short_circuit "u1" sampleIds true [] emptyDirtyState
    (by decide) (by decide)

/-- C9: on every successful persist, every document inserted into storage
and every highlight in the post-save `highlightedWords` carries the current
user's id as `userId`, regardless of the owner recorded before the save. -/
theorem c9_reowned_on_successful_persist (uid : String) (ids : Nat → String)
    (remote : List Highlight) (st : SyncState)
    (hsync : st.isSyncing = false)
    (hne : flattenAll st.localHighlights ≠ []) :
    allOwnedBy (saveHighlights (some uid) ids true remote st).inserted uid
        = true ∧
      allOwnedBy
        (saveHighlights (some uid) ids true remote st).state.highlightedWords
        uid = true := by
  obtain ⟨l, w, ns, sy⟩ := st
  replace hsync : sy = false := hsync
  replace hne : flattenAll l ≠ [] := hne
  subst hsync
  rw [saveHighlights_success_eq uid ids remote l w ns hne]
  constructor <;>
  · simp only [allOwnedBy, List.all_eq_true]
    intro x hx
    have hown := (mem_mkDocs ids uid (flattenAll l) 0 hx).2
    simpa using hown

/-- C9 witness: persisting a store holding a highlight owned by `uOther`
re-owns everything to the saving user `u1`. -/
theorem c9_reowned_on_successful_persist_witness :
    allOwnedBy
        (saveHighlights (some "u1") sampleIds true [] otherUserState).inserted
        "u1" = true ∧
      allOwnedBy
        (saveHighlights (some "u1") sampleIds true [] otherUserState).state.highlightedWords
        "u1" = true :=
  c9_reowned_on_successful_persist "u1" sampleIds [] otherUserState
    (by decide) (by decide)

/-- C10: the Navbar carries a second, non-equivalent persistence routine —
on an empty dirty Local Highlights Map it still contacts storage and commits
a batch that deletes every persisted highlight of the current user while
inserting nothing, and on success it never writes storage ids (or anything
else) back into the in-memory highlight state; the ScriptureReader routine
on the same state performs no storage operation at all and leaves the remote
collection intact. -/
theorem c10_navbar_persistence_divergence (uid : String) (ids : Nat → String)
    (remote : List Highlight) (st : SyncState)
    (hsync : st.isSyncing = false) (hdirty : st.needsSync = true)
    (hempty : flattenAll st.localHighlights = []) :
    navbarSaveHighlights (some uid) ids true remote st =
      { state := { st with needsSync := false, isSyncing := false },
        remote := remote.filter (fun h => h.userId != uid),
        reads := 1, commits := 1, inserted := [] } ∧
      (∀ h ∈ (navbarSaveHighlights (some uid) ids true remote st).remote,
        ¬ h.userId = uid) ∧
      (navbarSaveHighlights (some uid) ids true remote st).state.highlightedWords
        = st.highlightedWords ∧
      (navbarSaveHighlights (some uid) ids true remote st).state.localHighlights
        = st.localHighlights ∧
      saveHighlights (some uid) ids true remote st =
        { state := { st with needsSync := false }, remote := remote,
          reads := 0, commits := 0, inserted := [] } := by
  obtain ⟨l, w, ns, sy⟩ := st
  replace hsync : sy = false := hsync
  replace hempty : flattenAll l = [] := hempty
  subst hsync
  have hnav : navbarSaveHighlights (some uid) ids true remote ⟨l, w, ns, false⟩ =
      { state := ⟨l, w, false, false⟩,
        remote := remote.filter (fun h => h.userId != uid),
        reads := 1, commits := 1, inserted := [] } := by
    simp [navbarSaveHighlights, navbarSaveBody, inflight, hempty, mkDocs]
  refine ⟨hnav, ?_, ?_, ?_, ?_⟩
  · rw [hnav]
    intro h hmem
    have hne := (List.mem_filter.mp hmem).2
    simpa using hne
  · rw [hnav]
  · rw [hnav]
  · simp [saveHighlights, saveHighlightsBody, inflight, hempty]

/-- C10 witness: on the empty dirty state with a populated remote
collection, the Navbar routine commits a batch wiping user `u1`'s persisted
highlight while the ScriptureReader routine does not touch storage. -/
theorem c10_navbar_persistence_divergence_witness :
    navbarSaveHighlights (some "u1") sampleIds true sampleRemote
        emptyDirtyState =
      { state := { emptyDirtyState with
          needsSync := false,
          isSyncing := false },
        remote := [{
          id := some "r2", verseId := "v2", startIndex := 4,
          endIndex := 9, color := "#F8BBD0", userId := "uOther" }],
        reads := 1, commits := 1, inserted := [] } ∧
      saveHighlights (some "u1") sampleIds true sampleRemote emptyDirtyState =
        { state := { emptyDirtyState with needsSync := false },
          remote := sampleRemote, reads := 0, commits := 0,
          inserted := [] } := by
  have h := c10_navbar_persistence_divergence "u1" sampleIds sampleRemote
    emptyDirtyState (by decide) (by decide) (by decide)
  refine ⟨?_, h.2.2.2.2⟩
  rw [h.1]
  decide

end SharedScriptures
